import Mathlib

/-!
Shallow embedding of `kafka/conn.py`: the endpoint resolver
(`collect_hosts`) and the framed transport (`KafkaConnection`) with its
exact-byte-count read loop, size-prefix decoding, the reconnect/close
state machine, and the TLS option handling of `ssl_wrapper`.

Python 2 string semantics are used throughout (the module's byte
strings are `str`, so `data == ''` tests for an empty read, and
`six.PY3` is `False`, so the `ciphers` option is not in the supported
set).  Strings manipulated character-wise by the resolver are modelled
as `List Char`; byte strings as `List Nat`.  External effects are
oracles: a `Bool` for the outcome of `socket.create_connection` and of
`sendall`, and a list of `SockEv` events for the results of successive
`socket.recv` calls on the wire.
-/

/-! ### Endpoint resolver: `collect_hosts` -/

/-- Whitespace characters removed by Python's `str.strip()`. -/
def isPySpace (c : Char) : Bool :=
  c == ' ' || c == '\t' || c == '\n' || c == '\r' || c == '\x0b' || c == '\x0c'

/-- Python `str.strip()`: drop leading and trailing whitespace. -/
def pyStrip (s : List Char) : List Char :=
  ((s.dropWhile isPySpace).reverse.dropWhile isPySpace).reverse

/-- Auxiliary for `str.split(sep)` with a one-character separator; `cur`
holds the current field in reverse. -/
def pySplitAux (sep : Char) : List Char → List Char → List (List Char)
  | cur, [] => [cur.reverse]
  | cur, c :: cs =>
    if c == sep then cur.reverse :: pySplitAux sep [] cs
    else pySplitAux sep (c :: cur) cs

/-- Python `str.split(sep)` for a one-character separator: splits at every
occurrence, keeping empty fields, and never returns an empty list. -/
def pySplit (sep : Char) (s : List Char) : List (List Char) :=
  pySplitAux sep [] s

/-- Value of a decimal digit character, if it is one. -/
def digitVal (c : Char) : Option Nat :=
  if '0' ≤ c ∧ c ≤ '9' then some (c.toNat - 48) else none

/-- Accumulate the value of a run of decimal digits; `none` on the first
non-digit. -/
def parseNatAux : Nat → List Char → Option Nat
  | acc, [] => some acc
  | acc, c :: cs =>
    match digitVal c with
    | some d => parseNatAux (acc * 10 + d) cs
    | none => none

/-- Value of a nonempty all-digit string. -/
def parseNatDigits : List Char → Option Nat
  | [] => none
  | l => parseNatAux 0 l

/-- Python `int(s)` on a string: surrounding whitespace is tolerated, then
an optional sign and a nonempty run of decimal digits; `none` models the
`ValueError` raised on anything else. -/
def pyInt (s : List Char) : Option Int :=
  match pyStrip s with
  | [] => none
  | '+' :: rest => (parseNatDigits rest).map (fun n => (n : Int))
  | '-' :: rest => (parseNatDigits rest).map (fun n => -(n : Int))
  | l => (parseNatDigits l).map (fun n => (n : Int))

/-- Default broker port, `DEFAULT_KAFKA_PORT = 9092`. -/
def DEFAULT_KAFKA_PORT : Int := 9092

/-- One iteration of the `collect_hosts` loop on a `host[:port]` token:
`res = host_port.split(':')`, `host = res[0]`,
`port = int(res[1]) if len(res) > 1 else DEFAULT_KAFKA_PORT`, appending
`(host.strip(), port)`; `.error` carries the string on which `int`
raised `ValueError`. -/
def parse_host (token : List Char) : Except (List Char) (List Char × Int) :=
  match pySplit ':' token with
  | [] => .ok (pyStrip [], DEFAULT_KAFKA_PORT)
  | [h] => .ok (pyStrip h, DEFAULT_KAFKA_PORT)
  | h :: p :: _ =>
    match pyInt p with
    | some n => .ok (pyStrip h, n)
    | none => .error p

/-- The `for host_port in hosts:` loop of `collect_hosts`: the first
`ValueError` aborts the whole call. -/
def parse_all : List (List Char) → Except (List Char) (List (List Char × Int))
  | [] => .ok []
  | t :: ts =>
    match parse_host t with
    | .ok hp =>
      match parse_all ts with
      | .ok l => .ok (hp :: l)
      | .error e => .error e
    | .error e => .error e

/-- The endpoint resolver `collect_hosts(hosts, randomize)` on a string
input with `randomize=False` (the `shuffle` call is external randomness
and does not run on this path): `hosts.strip().split(',')`, then parse
each token in order. -/
def collect_hosts (s : List Char) : Except (List Char) (List (List Char × Int)) :=
  parse_all (pySplit ',' (pyStrip s))

deriving instance DecidableEq for Except

/-- Python `str.upper()` on ASCII strings (the only ones compared here). -/
def pyUpper (s : String) : String :=
  ⟨s.data.map Char.toUpper⟩

/-- Whether an `Except` result is a normal return. -/
def exceptIsOk : Except (List Char) (List (List Char × Int)) → Bool
  | .ok _ => true
  | .error _ => false

/-- Whether a single-token parse is a normal return. -/
def parseIsOk : Except (List Char) (List Char × Int) → Bool
  | .ok _ => true
  | .error _ => false

/-! ### Framed transport: wire events and the `_read_bytes` loop -/

/-- One byte string (a Python 2 `str`) as a list of byte values. -/
abbrev Chunk := List Nat

/-- Result of one underlying `socket.recv` call: either returned data
(possibly empty) or a raised `socket.error`. -/
inductive SockEv
  | data (chunk : Chunk)
  | err
deriving DecidableEq

/-- Result of the `while bytes_left:` loop of `_read_bytes`. -/
inductive ReadRes
  | ok (payload : Chunk) (rest : List SockEv)
  | sockErrCaught (rest : List SockEv)
  | negSize (rest : List SockEv)
  | blocked
deriving DecidableEq

/-- The accumulation loop of `_read_bytes`: while `bytes_left` is nonzero,
request `min(bytes_left, 4096)` bytes (a negative request raises an
uncaught `ValueError`, `negSize`), treat an empty result as a raised
`socket.error` (caught, like a real `socket.error`, as `sockErrCaught`),
and otherwise append the data and decrease `bytes_left` by its length.
The event list supplies the result of each successive `socket.recv`;
`blocked` stands for a read that never returns. -/
def readLoop : Int → Chunk → List SockEv → ReadRes
  | bytesLeft, acc, [] =>
    if bytesLeft = 0 then .ok acc []
    else if min bytesLeft 4096 < 0 then .negSize []
    else .blocked
  | bytesLeft, acc, ev :: rest =>
    if bytesLeft = 0 then .ok acc (ev :: rest)
    else if min bytesLeft 4096 < 0 then .negSize (ev :: rest)
    else
      match ev with
      | .err => .sockErrCaught rest
      | .data ch =>
        if ch = [] then .sockErrCaught rest
        else readLoop (bytesLeft - ch.length) (acc ++ ch) rest

/-- `struct.unpack('>i', b)`: big-endian signed 32-bit decoding of a
4-byte string. -/
def unpackInt32BE (b : Chunk) : Int :=
  let u : Nat :=
    b.getD 0 0 * 16777216 + b.getD 1 0 * 65536 + b.getD 2 0 * 256 + b.getD 3 0
  if u < 2147483648 then (u : Int) else (u : Int) - 4294967296

/-- Big-endian two's-complement 4-byte encoding of a signed 32-bit
integer, the inverse wire format of `unpackInt32BE`. -/
def packInt32BE (n : Int) : Chunk :=
  let u : Nat := (n % 4294967296).toNat
  [u / 16777216 % 256, u / 65536 % 256, u / 256 % 256, u % 256]

/-! ### The connection object and its operations -/

/-- State of a `KafkaConnection`: the configuration fields of `__init__`
plus whether a socket handle is present (`self._sock is not None`). -/
structure KafkaConnection where
  host : String
  port : Int
  timeout : Option Int
  sslopts : Option (List (String × String))
  sock : Bool
deriving DecidableEq

/-- Outcome of one operation: a normal return (with the payload for
`recv`), the exception it raises, or `blocked` when the event list runs
out while the loop still waits for data. -/
inductive Outcome
  | ok (payload : Chunk)
  | connError
  | valueError
  | keyError (key : String)
  | sysExit (code : Int)
  | blocked
  | structError
deriving DecidableEq

namespace KafkaConnection

/-- close(): shutdown errors are swallowed, then the handle is closed and
set to `None`; a call with no handle only logs. -/
def close (c : KafkaConnection) : KafkaConnection :=
  if c.sock then { c with sock := false } else c

/-- The private `_raise_connection_error`: close the socket if there is
one, then raise `ConnectionError`. -/
def raise_connection_error (c : KafkaConnection) : KafkaConnection × Outcome :=
  (close c, .connError)

/-- Option keys accepted by `ssl_wrapper` (Python 2: no `ciphers`). -/
def supportedKeys : List String :=
  ["security.protocol", "keyfile", "certfile", "cert_reqs", "ca_certs"]

/-- First value bound to a key in an association list (dict lookup). -/
def lookupKey (k : String) : List (String × String) → Option String
  | [] => none
  | (k2, v) :: rest => if k2 = k then some v else lookupKey k rest

/-- Lines 261-263 of `ssl_wrapper`: `cert_reqs = ssl.CERT_NONE`, and when
the key `cert_reqs` is present, `cert_reqs = self.sslopts['ca_reqs']`
(sic), whose absence raises `KeyError('ca_reqs')`. -/
def ssl_cert_reqs (opts : List (String × String)) : Except String String :=
  if (lookupKey "cert_reqs" opts).isSome then
    match lookupKey "ca_reqs" opts with
    | some v => .ok v
    | none => .error "ca_reqs"
  else .ok "CERT_NONE"

/-- ssl_wrapper(): validate every key against the supported set (the
first unknown key is `sys.exit(1)`), then read the option values (the
`cert_reqs` read can raise `KeyError`), then wrap the socket; an
`ssl.SSLError` from the wrap is logged and swallowed, so the handle
survives either way. -/
def ssl_wrapper (c : KafkaConnection) : KafkaConnection × Outcome :=
  match c.sslopts with
  | none => (c, .ok [])
  | some opts =>
    if opts.any (fun kv => ! supportedKeys.contains kv.1) then (c, .sysExit 1)
    else
      match ssl_cert_reqs opts with
      | .error k => (c, .keyError k)
      | .ok _ => (c, .ok [])

/-- reinit(): close any current socket, dial (`socket.create_connection`,
outcome given by the oracle `dialOk`), on success enter the TLS upgrade
when `sslopts` is a nonempty dict whose `security.protocol` value
upper-cases to `SSL`, and on `socket.error` run
`_raise_connection_error`. -/
def reinit (c : KafkaConnection) (dialOk : Bool) : KafkaConnection × Outcome :=
  let c1 := if c.sock then close c else c
  if dialOk then
    let c2 : KafkaConnection := { c1 with sock := true }
    match c2.sslopts with
    | some opts =>
      if opts ≠ [] then
        match lookupKey "security.protocol" opts with
        | some v => if pyUpper v = "SSL" then ssl_wrapper c2 else (c2, .ok [])
        | none => (c2, .ok [])
      else (c2, .ok [])
    | none => (c2, .ok [])
  else
    raise_connection_error c1

/-- Body of `_read_bytes` once a handle exists: run the loop; a caught
`socket.error` becomes `_raise_connection_error()`. -/
def read_bytes_go (c : KafkaConnection) (n : Int) (s : List SockEv) :
    KafkaConnection × Outcome × List SockEv :=
  match readLoop n [] s with
  | .ok out rest => (c, .ok out, rest)
  | .sockErrCaught rest => ((raise_connection_error c).1, .connError, rest)
  | .negSize rest => (c, .valueError, rest)
  | .blocked => (c, .blocked, s)

/-- `_read_bytes(num_bytes)`: reconnect first when there is no handle,
then run the accumulation loop. Returns the new state, the outcome, and
the unconsumed socket events. -/
def read_bytes (c : KafkaConnection) (dialOk : Bool) (n : Int)
    (s : List SockEv) : KafkaConnection × Outcome × List SockEv :=
  if c.sock then read_bytes_go c n s
  else
    match reinit c dialOk with
    | (c1, .ok _) => read_bytes_go c1 n s
    | (c1, e) => (c1, e, s)

/-- Body of `send` once a handle exists: `sendall` (outcome from the
oracle `sendOk`); a `socket.error` becomes `_raise_connection_error()`. -/
def send_go (c : KafkaConnection) (sendOk : Bool) : KafkaConnection × Outcome :=
  if sendOk then (c, .ok []) else raise_connection_error c

/-- send(request_id, payload): reconnect when there is no handle, then
write the whole payload. -/
def send (c : KafkaConnection) (dialOk sendOk : Bool) (payload : Chunk) :
    KafkaConnection × Outcome :=
  if c.sock then send_go c sendOk
  else
    match reinit c dialOk with
    | (c1, .ok _) => send_go c1 sendOk
    | r => r

/-- recv(request_id): `resp = self._read_bytes(4)`, then
`(size,) = struct.unpack('>i', resp)` (a buffer that is not exactly
4 bytes would raise `struct.error`), then `self._read_bytes(size)`. -/
def recv (c : KafkaConnection) (dialOk : Bool) (s : List SockEv) :
    KafkaConnection × Outcome :=
  match read_bytes c dialOk 4 s with
  | (c1, .ok resp, rest) =>
    if resp.length = 4 then
      match read_bytes c1 dialOk (unpackInt32BE resp) rest with
      | (c2, r, _) => (c2, r)
    else (c1, .structError)
  | (c1, r, _) => (c1, r)

/-- copy(): `copy.deepcopy(self)` (a value copy of every field), then
host, port and timeout re-copied explicitly, then `c._sock = None`. -/
def copy (c : KafkaConnection) : KafkaConnection :=
  let c2 := c
  let c2 := { c2 with host := c.host }
  let c2 := { c2 with port := c.port }
  let c2 := { c2 with timeout := c.timeout }
  { c2 with sock := false }

/-- The constructor `__init__`: store the configuration, set
`self._sock = None`, then immediately call `self.reinit()`. -/
def init (host : String) (port : Int)
    (sslopts : Option (List (String × String))) (timeout : Option Int)
    (dialOk : Bool) : KafkaConnection × Outcome :=
  let c : KafkaConnection :=
    { host := host, port := port, timeout := timeout, sslopts := sslopts,
      sock := false }
  reinit c dialOk

end KafkaConnection

/-! ### Lemmas about the endpoint resolver -/

theorem pySplitAux_no_sep (sep : Char) (t : List Char) :
    ∀ cur : List Char, sep ∉ t → pySplitAux sep cur t = [cur.reverse ++ t] := by
  induction t with
  | nil => intro cur _; simp [pySplitAux]
  | cons c cs ih =>
    intro cur h
    have hc : ¬((c == sep) = true) := by
      simp only [beq_iff_eq]
      intro hcs
      exact h (by simp [hcs])
    have hcs : sep ∉ cs := fun hm => h (List.mem_cons_of_mem _ hm)
    simp only [pySplitAux, if_neg hc, ih (c :: cur) hcs]
    simp

/-- A token with no colon parses to its stripped self with the default
port. -/
theorem parse_host_no_colon (t : List Char) (h : ':' ∉ t) :
    parse_host t = .ok (pyStrip t, DEFAULT_KAFKA_PORT) := by
  unfold parse_host pySplit
  rw [pySplitAux_no_sep ':' t [] h]
  simp

theorem parse_all_ok (ts : List (List Char))
    (h : ∀ t ∈ ts, parseIsOk (parse_host t) = true) :
    exceptIsOk (parse_all ts) = true := by
  induction ts with
  | nil => rfl
  | cons t ts ih =>
    have h1 := h t (List.mem_cons_self _ _)
    have h2 := ih (fun u hu => h u (List.mem_cons_of_mem _ hu))
    cases hpt : parse_host t with
    | error e => rw [hpt] at h1; simp [parseIsOk] at h1
    | ok hp =>
      cases hra : parse_all ts with
      | error e => rw [hra] at h2; simp [exceptIsOk] at h2
      | ok l => simp [parse_all, hpt, hra, exceptIsOk]

/-- C8: `collect_hosts` on `"a:1,b,c:3"` with randomization disabled
returns exactly `[(a, 1), (b, 9092), (c, 3)]` in that order; in general
a token without a `:` gets the default port 9092 with its host stripped
of surrounding whitespace, and the whitespace example shows the trimming
of tokens that do carry a port. -/
theorem collect_hosts_ordered_defaults :
    collect_hosts ("a:1,b,c:3".data)
      = .ok [("a".data, 1), ("b".data, 9092), ("c".data, 3)]
    ∧ (∀ t : List Char, ':' ∉ t → parse_host t = .ok (pyStrip t, 9092))
    ∧ collect_hosts (" a : 1 , b ".data)
      = .ok [("a".data, 1), ("b".data, 9092)] := by
  refine ⟨by rfl, ?_, by rfl⟩
  intro t h
  exact parse_host_no_colon t h

theorem collect_hosts_ordered_defaults_witness :
    (':' ∉ (" b ".data))
    ∧ parse_host (" b ".data) = .ok ("b".data, 9092) :=
  ⟨by decide, collect_hosts_ordered_defaults.2.1 (" b ".data) (by decide)⟩

/-- C9 counterexample: `collect_hosts` is not total — on the input
`"a:foo"` the call to `int` on the port field raises `ValueError`
instead of returning an endpoint list. -/
theorem collect_hosts_raises_on_bad_port :
    collect_hosts ("a:foo".data) = .error ("foo".data) := by rfl

/-- C9 amended: `collect_hosts` returns an endpoint list without raising
whenever every token's port field (when present) parses as an integer;
in particular a token without a port field never raises, however
malformed its host part.  A non-integer port field raises `ValueError`
inside the resolver rather than failing later when dialing. -/
theorem collect_hosts_ok_when_ports_parse :
    (∀ s : List Char,
      (∀ t ∈ pySplit ',' (pyStrip s), parseIsOk (parse_host t) = true) →
      exceptIsOk (collect_hosts s) = true)
    ∧ (∀ t : List Char, ':' ∉ t → parseIsOk (parse_host t) = true) := by
  constructor
  · intro s h
    exact parse_all_ok _ h
  · intro t h
    rw [parse_host_no_colon t h]
    rfl

theorem collect_hosts_ok_when_ports_parse_witness :
    exceptIsOk (collect_hosts ("x,y:5".data)) = true :=
  collect_hosts_ok_when_ports_parse.1 ("x,y:5".data) (by decide)

/-! ### Lemmas about the read loop and the size prefix -/

theorem unpack_pack (n : Int) (h0 : -2147483648 ≤ n) (h1 : n < 2147483648) :
    unpackInt32BE (packInt32BE n) = n := by
  simp only [unpackInt32BE, packInt32BE]
  simp only [List.getD_cons_zero, List.getD_cons_succ]
  split <;> omega

theorem readLoop_zero (acc : Chunk) (s : List SockEv) :
    readLoop 0 acc s = .ok acc s := by
  cases s <;> simp [readLoop]

theorem readLoop_neg (n : Int) (hn : n < 0) (acc : Chunk) (s : List SockEv) :
    readLoop n acc s = .negSize s := by
  cases s <;>
    (simp only [readLoop]
     rw [if_neg (by omega), if_pos (by omega)])

/-- Soundness of the accumulation loop: a normal return has exactly the
requested number of bytes beyond the accumulator, never fewer. -/
theorem readLoop_ok_length (s : List SockEv) :
    ∀ (n : Int) (acc out : Chunk) (rest : List SockEv),
      readLoop n acc s = .ok out rest →
      (out.length : Int) = (acc.length : Int) + n := by
  induction s with
  | nil =>
    intro n acc out rest h
    simp only [readLoop] at h
    split at h
    · simp only [ReadRes.ok.injEq] at h
      obtain ⟨rfl, rfl⟩ := h
      omega
    · split at h <;> simp at h
  | cons ev rest' ih =>
    intro n acc out rest h
    cases ev with
    | err =>
      simp only [readLoop] at h
      split at h
      · simp only [ReadRes.ok.injEq] at h
        obtain ⟨rfl, rfl⟩ := h
        omega
      · split at h <;> simp at h
    | data ch =>
      simp only [readLoop] at h
      split at h
      · simp only [ReadRes.ok.injEq] at h
        obtain ⟨rfl, rfl⟩ := h
        omega
      · split at h
        · simp at h
        · split at h
          · simp at h
          · have hlen := ih _ _ _ _ h
            simp only [List.length_append] at hlen
            omega

/-- Completeness under fragmentation: nonempty chunks whose lengths sum
to the requested count are all consumed and concatenated, leaving the
rest of the event list untouched. -/
theorem readLoop_fragments (chunks : List Chunk) :
    ∀ (acc : Chunk) (tail : List SockEv),
      (∀ ch ∈ chunks, ch ≠ []) →
      readLoop ((chunks.map List.length).sum : Int) acc
          (chunks.map SockEv.data ++ tail)
        = .ok (acc ++ chunks.flatten) tail := by
  induction chunks with
  | nil =>
    intro acc tail _
    simpa using readLoop_zero acc tail
  | cons ch rest ih =>
    intro acc tail h
    have hch : ch ≠ [] := h ch (List.mem_cons_self _ _)
    have hpos : 0 < ch.length := List.length_pos.mpr hch
    simp only [List.map_cons, List.sum_cons, List.flatten_cons, List.cons_append]
    simp only [readLoop]
    rw [if_neg (by omega), if_neg (by omega), if_neg hch]
    have harg : ((ch.length + (rest.map List.length).sum : Nat) : Int)
        - (ch.length : Int) = (((rest.map List.length).sum : Nat) : Int) := by
      omega
    rw [harg, ih (acc ++ ch) tail (fun u hu => h u (List.mem_cons_of_mem _ hu))]
    simp

/-- Reaching an empty read while bytes are still owed aborts the loop
with a caught socket error. -/
theorem readLoop_empty_read (pre : List Chunk) :
    ∀ (n : Int) (acc : Chunk) (tail : List SockEv),
      (∀ ch ∈ pre, ch ≠ []) →
      ((pre.map List.length).sum : Int) < n →
      readLoop n acc (pre.map SockEv.data ++ SockEv.data [] :: tail)
        = .sockErrCaught tail := by
  induction pre with
  | nil =>
    intro n acc tail _ hlt
    simp only [List.map_nil, List.sum_nil, Nat.cast_zero] at hlt
    simp only [List.map_nil, List.nil_append, readLoop]
    rw [if_neg (by omega), if_neg (by omega)]
    simp
  | cons ch rest ih =>
    intro n acc tail h hlt
    have hch : ch ≠ [] := h ch (List.mem_cons_self _ _)
    simp only [List.map_cons, List.sum_cons] at hlt
    simp only [List.map_cons, List.cons_append, readLoop]
    rw [if_neg (by omega), if_neg (by omega), if_neg hch]
    exact ih (n - ch.length) (acc ++ ch) tail
      (fun u hu => h u (List.mem_cons_of_mem _ hu))
      (by omega)

/-- With a live handle, `_read_bytes` goes straight to its loop. -/
theorem read_bytes_sock (c : KafkaConnection) (hs : c.sock = true) (d : Bool)
    (n : Int) (s : List SockEv) :
    KafkaConnection.read_bytes c d n s = KafkaConnection.read_bytes_go c n s := by
  simp [KafkaConnection.read_bytes, hs]

/-- C1: `recv` first reads exactly 4 bytes, decodes them as a big-endian
signed 32-bit integer `N`, then reads and returns exactly `N` payload
bytes, accumulating across underlying reads: for every `N ≥ 0` and
every fragmentation of the header and the payload into nonempty chunks,
the returned payload is the concatenation of the payload chunks and has
exactly `N` bytes, with later events left unread. -/
theorem recv_reads_exact_frame (c : KafkaConnection) (d : Bool)
    (hs : c.sock = true) (hdrCs payCs : List Chunk) (tail : List SockEv)
    (N : Int) (hN0 : 0 ≤ N) (hN1 : N < 2147483648)
    (hhdr : ∀ ch ∈ hdrCs, ch ≠ []) (hpay : ∀ ch ∈ payCs, ch ≠ [])
    (hjoin : hdrCs.flatten = packInt32BE N)
    (hsum : ((payCs.map List.length).sum : Int) = N) :
    KafkaConnection.recv c d
        (hdrCs.map SockEv.data ++ (payCs.map SockEv.data ++ tail))
      = (c, .ok payCs.flatten)
    ∧ (payCs.flatten.length : Int) = N := by
  have hpack4 : (packInt32BE N).length = 4 := by simp [packInt32BE]
  have hhlen : (hdrCs.map List.length).sum = 4 := by
    have hl := congrArg List.length hjoin
    rw [List.length_flatten, hpack4] at hl
    exact hl
  have h1 := readLoop_fragments hdrCs [] (payCs.map SockEv.data ++ tail) hhdr
  rw [hhlen] at h1
  have h1' : readLoop 4 [] (hdrCs.map SockEv.data ++ (payCs.map SockEv.data ++ tail))
      = .ok hdrCs.flatten (payCs.map SockEv.data ++ tail) := by
    have : (((4 : Nat)) : Int) = (4 : Int) := by norm_num
    rw [this] at h1
    simpa using h1
  have h2 := readLoop_fragments payCs [] tail hpay
  rw [hsum] at h2
  have h2' : readLoop N [] (payCs.map SockEv.data ++ tail) = .ok payCs.flatten tail := by
    simpa using h2
  have hr4 : hdrCs.flatten.length = 4 := by rw [List.length_flatten, hhlen]
  have hupk : unpackInt32BE hdrCs.flatten = N := by
    rw [hjoin]
    exact unpack_pack N (by omega) hN1
  constructor
  · simp [KafkaConnection.recv, read_bytes_sock c hs,
      KafkaConnection.read_bytes_go, h1', h2', hr4, hupk]
  · rw [List.length_flatten]
    exact hsum

theorem recv_reads_exact_frame_witness :
    KafkaConnection.recv ⟨"h", 9092, none, none, true⟩ false
        ([SockEv.data [0, 0], SockEv.data [0, 3]].map id ++
          ([SockEv.data [97], SockEv.data [98, 99]] ++ []))
      = (⟨"h", 9092, none, none, true⟩, .ok [97, 98, 99]) := by
  have h := recv_reads_exact_frame ⟨"h", 9092, none, none, true⟩ false rfl
    [[0, 0], [0, 3]] [[97], [98, 99]] [] 3 (by norm_num) (by norm_num)
    (by decide) (by decide) (by decide) (by decide)
  simpa using h.1

/-- C3: an underlying read that returns zero bytes makes `recv` raise
`ConnectionError` after closing the socket, and a normal return of the
read loop never has fewer bytes than requested: an empty result while
bytes are still owed always aborts with the caught socket error, and an
`ok` loop result has exactly the requested length, so no empty or short
payload is ever returned as a success. -/
theorem recv_zero_read_raises (c : KafkaConnection) (d : Bool)
    (hs : c.sock = true) :
    (∀ s : List SockEv,
      KafkaConnection.recv c d (SockEv.data [] :: s)
        = ({ c with sock := false }, .connError))
    ∧ (∀ (n : Int) (pre : List Chunk) (tail : List SockEv),
        (∀ ch ∈ pre, ch ≠ []) →
        ((pre.map List.length).sum : Int) < n →
        KafkaConnection.read_bytes c d n
            (pre.map SockEv.data ++ SockEv.data [] :: tail)
          = ({ c with sock := false }, .connError, tail))
    ∧ (∀ (n : Int) (s : List SockEv) (out : Chunk) (rest : List SockEv),
        readLoop n [] s = .ok out rest → (out.length : Int) = n) := by
  have hclose : KafkaConnection.close c = { c with sock := false } := by
    simp [KafkaConnection.close, hs]
  refine ⟨?_, ?_, ?_⟩
  · intro s
    have hloop : readLoop 4 [] (SockEv.data [] :: s) = .sockErrCaught s := by
      simpa using readLoop_empty_read [] 4 [] s (by simp) (by norm_num)
    simp [KafkaConnection.recv, read_bytes_sock c hs, KafkaConnection.read_bytes_go,
      hloop, KafkaConnection.raise_connection_error, hclose]
  · intro n pre tail hpre hlt
    have hloop := readLoop_empty_read pre n [] tail hpre hlt
    simp [read_bytes_sock c hs, KafkaConnection.read_bytes_go, hloop,
      KafkaConnection.raise_connection_error, hclose]
  · intro n s out rest h
    have := readLoop_ok_length s n [] out rest h
    simpa using this

theorem recv_zero_read_raises_witness :
    KafkaConnection.recv ⟨"h", 9092, none, none, true⟩ false [SockEv.data []]
      = (⟨"h", 9092, none, none, false⟩, .connError) := by
  have h := (recv_zero_read_raises ⟨"h", 9092, none, none, true⟩ false rfl).1 []
  simpa using h

/-- C10: when the 4-byte size prefix decodes to a negative `N`, `recv`
neither returns a payload nor performs the close-then-raise teardown:
the loop guard `while bytes_left:` is entered, the requested count
`min(N, 4096)` is negative, the resulting `ValueError` is not a
`socket.error` caught by the handler, and the socket handle is left
open. -/
theorem recv_negative_size_uncaught (c : KafkaConnection) (d : Bool)
    (hs : c.sock = true) (hdrCs : List Chunk) (tail : List SockEv)
    (N : Int) (hneg : N < 0) (hge : -2147483648 ≤ N)
    (hhdr : ∀ ch ∈ hdrCs, ch ≠ []) (hjoin : hdrCs.flatten = packInt32BE N) :
    KafkaConnection.recv c d (hdrCs.map SockEv.data ++ tail) = (c, .valueError)
    ∧ (KafkaConnection.recv c d (hdrCs.map SockEv.data ++ tail)).1.sock = true := by
  have hpack4 : (packInt32BE N).length = 4 := by simp [packInt32BE]
  have hhlen : (hdrCs.map List.length).sum = 4 := by
    have hl := congrArg List.length hjoin
    rw [List.length_flatten, hpack4] at hl
    exact hl
  have h1 := readLoop_fragments hdrCs [] tail hhdr
  rw [hhlen] at h1
  have h1' : readLoop 4 [] (hdrCs.map SockEv.data ++ tail)
      = .ok hdrCs.flatten tail := by
    have : (((4 : Nat)) : Int) = (4 : Int) := by norm_num
    rw [this] at h1
    simpa using h1
  have hr4 : hdrCs.flatten.length = 4 := by rw [List.length_flatten, hhlen]
  have hupk : unpackInt32BE hdrCs.flatten = N := by
    rw [hjoin]
    exact unpack_pack N hge (by omega)
  have h2 := readLoop_neg N hneg [] tail
  have hmain : KafkaConnection.recv c d (hdrCs.map SockEv.data ++ tail)
      = (c, .valueError) := by
    simp [KafkaConnection.recv, read_bytes_sock c hs,
      KafkaConnection.read_bytes_go, h1', hr4, hupk, h2]
  exact ⟨hmain, by rw [hmain]; exact hs⟩

theorem recv_negative_size_uncaught_witness :
    KafkaConnection.recv ⟨"h", 9092, none, none, true⟩ false
        [SockEv.data [255, 255, 255, 255]]
      = (⟨"h", 9092, none, none, true⟩, .valueError) := by
  have h := recv_negative_size_uncaught ⟨"h", 9092, none, none, true⟩ false rfl
    [[255, 255, 255, 255]] [] (-1) (by norm_num) (by norm_num)
    (by decide) (by decide)
  simpa using h.1

/-! ### Lemmas about the connection state machine -/

theorem close_sock (c : KafkaConnection) : (KafkaConnection.close c).sock = false := by
  unfold KafkaConnection.close
  split
  · rfl
  · rename_i hcs
    simpa using hcs

theorem ssl_wrapper_fst (c : KafkaConnection) :
    (KafkaConnection.ssl_wrapper c).1 = c := by
  cases hso : c.sslopts with
  | none => simp [KafkaConnection.ssl_wrapper, hso]
  | some opts =>
    simp only [KafkaConnection.ssl_wrapper, hso]
    split
    · rfl
    · cases hcr : KafkaConnection.ssl_cert_reqs opts <;> simp [hcr]

theorem ssl_wrapper_ne_connError (c : KafkaConnection) :
    (KafkaConnection.ssl_wrapper c).2 ≠ .connError := by
  cases hso : c.sslopts with
  | none => simp [KafkaConnection.ssl_wrapper, hso]
  | some opts =>
    simp only [KafkaConnection.ssl_wrapper, hso]
    split
    · simp
    · cases hcr : KafkaConnection.ssl_cert_reqs opts <;> simp [hcr]

/-- A failed dial always yields a closed handle and the raised
`ConnectionError`. -/
theorem reinit_false_eq (c : KafkaConnection) :
    KafkaConnection.reinit c false = ({ c with sock := false }, .connError) := by
  rcases c with ⟨ch, cp, ct, cso, csk⟩
  cases csk <;>
    simp [KafkaConnection.reinit, KafkaConnection.raise_connection_error,
      KafkaConnection.close]

/-- A successful dial never raises `ConnectionError` (the TLS wrapper can
only return normally, exit the process, or raise `KeyError`). -/
theorem reinit_true_ne_connError (c : KafkaConnection) :
    (KafkaConnection.reinit c true).2 ≠ .connError := by
  rcases c with ⟨ch, cp, ct, cso, csk⟩
  cases cso <;> cases csk <;>
    simp only [KafkaConnection.reinit, KafkaConnection.close] <;>
    (repeat' split) <;>
    first
      | exact ssl_wrapper_ne_connError _
      | simp_all

theorem reinit_connError_disconnected (c : KafkaConnection) (d : Bool) :
    (KafkaConnection.reinit c d).2 = .connError →
    (KafkaConnection.reinit c d).1.sock = false := by
  cases d with
  | false =>
    intro _
    rw [reinit_false_eq]
  | true =>
    intro h
    exact absurd h (reinit_true_ne_connError c)

theorem read_bytes_connError_disconnected (c : KafkaConnection) (d : Bool)
    (n : Int) (s : List SockEv) :
    (KafkaConnection.read_bytes c d n s).2.1 = .connError →
    (KafkaConnection.read_bytes c d n s).1.sock = false := by
  unfold KafkaConnection.read_bytes
  split
  · unfold KafkaConnection.read_bytes_go
    split <;> intro h <;>
      simp_all [KafkaConnection.raise_connection_error, close_sock]
  · split
    · unfold KafkaConnection.read_bytes_go
      split <;> intro h <;>
        simp_all [KafkaConnection.raise_connection_error, close_sock]
    · rename_i c1 e heq
      intro h
      have hre := reinit_connError_disconnected c d
      rw [heq] at hre
      exact hre h

theorem send_connError_disconnected (c : KafkaConnection) (d so : Bool)
    (p : Chunk) :
    (KafkaConnection.send c d so p).2 = .connError →
    (KafkaConnection.send c d so p).1.sock = false := by
  unfold KafkaConnection.send
  split
  · unfold KafkaConnection.send_go
    split <;> intro h
    · simp at h
    · simp [KafkaConnection.raise_connection_error, close_sock]
  · split
    · unfold KafkaConnection.send_go
      split <;> intro h
      · simp at h
      · simp [KafkaConnection.raise_connection_error, close_sock]
    · intro h
      exact reinit_connError_disconnected c d h

theorem recv_connError_disconnected (c : KafkaConnection) (d : Bool)
    (s : List SockEv) :
    (KafkaConnection.recv c d s).2 = .connError →
    (KafkaConnection.recv c d s).1.sock = false := by
  unfold KafkaConnection.recv
  split
  · rename_i c1 resp rest heq
    split
    · rcases hx : KafkaConnection.read_bytes c1 d (unpackInt32BE resp) rest
        with ⟨c2, r2, rest2⟩
      simp only [hx]
      intro h
      have hrb := read_bytes_connError_disconnected c1 d (unpackInt32BE resp) rest
      rw [hx] at hrb
      exact hrb h
    · intro h
      simp at h
  · rename_i c1 r rest heq
    intro h
    have hrb := read_bytes_connError_disconnected c d 4 s
    rw [heq] at hrb
    exact hrb h

/-- C2: whenever `send`, `recv` or `reinit` raises `ConnectionError`, the
socket handle has been closed before the error surfaces, so the caller
observes the connection in the disconnected state (no live handle). -/
theorem connError_leaves_disconnected (c : KafkaConnection) (d so : Bool)
    (p : Chunk) (s : List SockEv) :
    ((KafkaConnection.send c d so p).2 = .connError →
      (KafkaConnection.send c d so p).1.sock = false)
    ∧ ((KafkaConnection.recv c d s).2 = .connError →
      (KafkaConnection.recv c d s).1.sock = false)
    ∧ ((KafkaConnection.reinit c d).2 = .connError →
      (KafkaConnection.reinit c d).1.sock = false) :=
  ⟨send_connError_disconnected c d so p, recv_connError_disconnected c d s,
    reinit_connError_disconnected c d⟩

theorem connError_leaves_disconnected_witness :
    (KafkaConnection.send ⟨"h", 9092, none, none, true⟩ false false [1]).2
        = .connError
    ∧ (KafkaConnection.send ⟨"h", 9092, none, none, true⟩ false false [1]).1.sock
        = false :=
  ⟨by decide,
    (connError_leaves_disconnected ⟨"h", 9092, none, none, true⟩ false false
      [1] []).1 (by decide)⟩

/-- C4: `copy()` returns a clone with the same host, port, timeout and
TLS options map, and with no live socket handle. -/
theorem copy_preserves_config_without_sock (c : KafkaConnection) :
    (KafkaConnection.copy c).host = c.host
    ∧ (KafkaConnection.copy c).port = c.port
    ∧ (KafkaConnection.copy c).timeout = c.timeout
    ∧ (KafkaConnection.copy c).sslopts = c.sslopts
    ∧ (KafkaConnection.copy c).sock = false := by
  simp [KafkaConnection.copy]

/-- C5 counterexample: a TLS options map that contains the unrecognized
key `bogus` but no `security.protocol` entry is silently accepted —
`reinit` dials, validates nothing, and returns normally instead of
terminating with a configuration error. -/
theorem bogus_key_without_ssl_accepted :
    KafkaConnection.reinit ⟨"h", 9092, none, some [("bogus", "1")], false⟩ true
      = (⟨"h", 9092, none, some [("bogus", "1")], true⟩, .ok []) := by decide

/-- C5 amended: only when TLS is actually enabled — the options map has a
`security.protocol` entry whose value upper-cases to `SSL` — does an
unrecognized key make the client terminate, via `sys.exit(1)`; this
happens inside `ssl_wrapper`, after the TCP dial has already opened a
socket (the returned state has a live handle) but before the TLS wrap
and before any data is sent or received. -/
theorem ssl_wrapper_bad_key (c : KafkaConnection)
    (opts : List (String × String)) (hso : c.sslopts = some opts)
    (hbad : opts.any (fun kv => ! KafkaConnection.supportedKeys.contains kv.1)
      = true) :
    KafkaConnection.ssl_wrapper c = (c, .sysExit 1) := by
  unfold KafkaConnection.ssl_wrapper
  rw [hso]
  simp only []
  rw [if_pos hbad]

/-- With TLS enabled in the options (a `security.protocol` entry whose
value upper-cases to `SSL`), a successful dial always enters
`ssl_wrapper` on the freshly connected state. -/
theorem reinit_true_ssl (c : KafkaConnection)
    (opts : List (String × String)) (v : String)
    (hso : c.sslopts = some opts)
    (hsp : KafkaConnection.lookupKey "security.protocol" opts = some v)
    (hv : pyUpper v = "SSL") :
    KafkaConnection.reinit c true
      = KafkaConnection.ssl_wrapper { c with sock := true } := by
  have hne : opts ≠ [] := by
    intro he
    rw [he] at hsp
    simp [KafkaConnection.lookupKey] at hsp
  rcases c with ⟨ch, cp, ct, cso, csk⟩
  simp only [KafkaConnection.sslopts] at hso
  subst hso
  cases csk <;>
    simp only [KafkaConnection.reinit, KafkaConnection.close] <;>
    (repeat' split) <;>
    first
      | rfl
      | simp_all

theorem unknown_tls_key_exits (c : KafkaConnection)
    (opts : List (String × String)) (v : String)
    (hso : c.sslopts = some opts)
    (hsp : KafkaConnection.lookupKey "security.protocol" opts = some v)
    (hv : pyUpper v = "SSL")
    (hbad : opts.any (fun kv => ! KafkaConnection.supportedKeys.contains kv.1)
      = true) :
    KafkaConnection.reinit c true = ({ c with sock := true }, .sysExit 1) := by
  rw [reinit_true_ssl c opts v hso hsp hv,
    ssl_wrapper_bad_key { c with sock := true } opts hso hbad]

theorem unknown_tls_key_exits_witness :
    KafkaConnection.reinit
        ⟨"h", 9092, none,
          some [("security.protocol", "SSL"), ("bogus", "1")], false⟩ true
      = (⟨"h", 9092, none,
          some [("security.protocol", "SSL"), ("bogus", "1")], true⟩,
         .sysExit 1) :=
  unknown_tls_key_exits _ _ "SSL" rfl (by decide) (by decide) (by decide)

/-- C6 (evaluation at the failing input): with `cert_reqs` present in the
options map, `ssl_wrapper` does not use the value stored under
`cert_reqs` — it reads the key `ca_reqs` (line 263), which cannot be
present past validation, and so raises an uncaught `KeyError`; the
default path with `cert_reqs` absent does yield `CERT_NONE`. -/
theorem cert_reqs_reads_ca_reqs :
    KafkaConnection.ssl_cert_reqs
        [("security.protocol", "SSL"), ("cert_reqs", "CERT_REQUIRED")]
      = .error "ca_reqs"
    ∧ KafkaConnection.reinit
        ⟨"h", 9092, none,
          some [("security.protocol", "SSL"), ("cert_reqs", "CERT_REQUIRED")],
          false⟩ true
      = (⟨"h", 9092, none,
          some [("security.protocol", "SSL"), ("cert_reqs", "CERT_REQUIRED")],
          true⟩,
         .keyError "ca_reqs")
    ∧ KafkaConnection.ssl_cert_reqs [("security.protocol", "SSL")]
      = .ok "CERT_NONE" :=
  ⟨by decide, by decide, by decide⟩

/-- C7 counterexample: constructing a client is not dial-free — the
constructor calls `reinit()`, so with a successful dial a freshly
constructed client already holds a live socket handle. -/
theorem constructor_dials :
    (KafkaConnection.init "h" 9092 none (some 120) true).1.sock = true
    ∧ (KafkaConnection.init "h" 9092 none (some 120) true).2 = .ok [] :=
  ⟨by decide, by decide⟩

/-- C7 amended: the handle starts absent, but the constructor immediately
calls `reinit`, which dials: construction with a failing dial raises
`ConnectionError` and leaves the client disconnected, construction with
a successful dial returns a connected client, a transition into the
connected state can only result from a successful dial inside `reinit`,
and `close` always leads back to the disconnected state. -/
theorem init_reinit_state_machine (h : String) (p : Int) (t : Option Int)
    (c : KafkaConnection) (d : Bool) :
    KafkaConnection.init h p none t false
      = ({ host := h, port := p, timeout := t, sslopts := none, sock := false },
         .connError)
    ∧ KafkaConnection.init h p none t true
      = ({ host := h, port := p, timeout := t, sslopts := none, sock := true },
         .ok [])
    ∧ ((KafkaConnection.reinit c d).1.sock = true → d = true)
    ∧ (KafkaConnection.close c).sock = false := by
  refine ⟨?_, ?_, ?_, close_sock c⟩
  · unfold KafkaConnection.init
    rw [reinit_false_eq]
  · simp [KafkaConnection.init, KafkaConnection.reinit, KafkaConnection.close]
  · intro hsk
    cases d with
    | true => rfl
    | false =>
      rw [reinit_false_eq] at hsk
      simp at hsk

theorem init_reinit_state_machine_witness :
    (KafkaConnection.reinit ⟨"h", 9092, none, none, false⟩ true).1.sock = true
    ∧ true = true :=
  ⟨by decide,
    (init_reinit_state_machine "h" 9092 none ⟨"h", 9092, none, none, false⟩
      true).2.2.1 (by decide)⟩
